import Mathlib

set_option autoImplicit false

/-!
Verification of the keyed-resource lifecycle manager in
src/src/resource-manager.ts (class ResourceManager).

The TypeScript class keeps a Map from string keys to ResourceInfo records,
creates resources lazily through a caller-supplied factory, refreshes a
lastUsed timestamp on reuse, evicts entries whose idle time exceeds the
configured interval on a periodic sweep, and tears everything down on
destroyAllNow.

Shallow embedding choices:
- the Map is an insertion-ordered association list with Map.get / Map.set /
  Map.delete semantics (set replaces in place, delete filters the key out);
- timestamps are Nat milliseconds; the JS comparison
  now - lastUsed > interval agrees with truncated Nat subtraction because a
  negative JS difference is never greater than a non-negative interval;
- a cleanup function is represented by a Nat identifier; whether invoking it
  succeeds is given by an oracle ok : Nat -> Bool (the code only observes
  resolve/reject of the returned promise);
- a factory call outcome is an Except value; the await points of getResource
  split it into a synchronous check phase and a commit phase
  (getResourceInsert), which is how the documented same-key race arises;
- every cleanup invocation is logged as a (key, info) pair so that
  at-most-once properties are statements about the log.
-/

namespace ResourceManager

/-- Embeds the ResourceInfo interface of resource-manager.ts: the stored
resource, the lastUsed timestamp, the diagnostic instanceId, the
informational resourceType label, the cacheKey and the cleanup function
(identified by a Nat). -/
structure ResourceInfo (T : Type) where
  resource : T
  lastUsed : Nat
  instanceId : String
  resourceType : String
  cacheKey : String
  cleanupFn : Nat
  deriving Repr, DecidableEq

/-- The resources Map of the manager: an insertion-ordered list of
key/info pairs with at most one pair per key. -/
abbrev Store (T : Type) := List (String × ResourceInfo T)

/-- Map.get: the info stored under a key, if any. -/
def lookupEntry {T : Type} : Store T → String → Option (ResourceInfo T)
  | [], _ => none
  | (k0, v) :: rest, k => if k0 = k then some v else lookupEntry rest k

/-- Map.set: replace the pair with this key in place, or append a new one. -/
def setEntry {T : Type} : Store T → String → ResourceInfo T → Store T
  | [], k, v => [(k, v)]
  | (k0, v0) :: rest, k, v =>
      if k0 = k then (k, v) :: rest else (k0, v0) :: setEntry rest k v

/-- Map.delete: remove every pair with this key (at most one when keys are
unique). -/
def eraseEntry {T : Type} (s : Store T) (k : String) : Store T :=
  s.filter (fun p => p.1 ≠ k)

/-- The store invariant maintained by the Map: keys are pairwise distinct. -/
abbrev keysNodup {T : Type} (s : Store T) : Prop :=
  (s.map Prod.fst).Nodup

/-- Observable outcome of one getResource call: the store afterwards, the
returned resource or thrown error, whether the factory ran, and whether the
resource-type-mismatch warning was emitted. -/
structure GetResult (T : Type) where
  store : Store T
  result : Except String T
  factoryInvoked : Bool
  typeMismatchWarned : Bool
  deriving Repr

/-- The commit half of the miss path of getResource: after the factory's
promise resolves, build the new ResourceInfo and write it into the store
(this runs against whatever the store holds at that moment, which is the
source of the documented same-key creation race). -/
def getResourceInsert {T : Type} (s : Store T) (key : String) (r : T)
    (now : Nat) (instanceId : String) (resourceType : String)
    (cleanupFn : Nat) : Store T :=
  setEntry s key
    { resource := r, lastUsed := now, instanceId := instanceId,
      resourceType := resourceType, cacheKey := key, cleanupFn := cleanupFn }

/-- Embeds getResource of resource-manager.ts, atomically (no interleaving
between the initial Map.get and the final Map.set). On a hit it refreshes
lastUsed, warns when the stored resourceType differs from the argument, and
returns the stored resource; on a miss it runs the factory, stores a fresh
entry on success, and on failure stores nothing and throws an error
wrapping the resourceType and the cause. -/
def getResource {T : Type} (s : Store T) (key : String)
    (resourceType : String) (factory : Except String T) (cleanupFn : Nat)
    (now : Nat) (instanceId : String) : GetResult T :=
  match lookupEntry s key with
  | some info =>
      { store := setEntry s key { info with lastUsed := now }
        result := Except.ok info.resource
        factoryInvoked := false
        typeMismatchWarned := decide (info.resourceType ≠ resourceType) }
  | none =>
      match factory with
      | Except.ok r =>
          { store := getResourceInsert s key r now instanceId resourceType cleanupFn
            result := Except.ok r
            factoryInvoked := true
            typeMismatchWarned := false }
      | Except.error e =>
          { store := s
            result := Except.error
              ("Resource factory function failed for type " ++ resourceType
                ++ ": " ++ e)
            factoryInvoked := true
            typeMismatchWarned := false }

theorem lookupEntry_setEntry_self {T : Type} (s : Store T) (k : String)
    (v : ResourceInfo T) : lookupEntry (setEntry s k v) k = some v := by
  induction s with
  | nil => simp [setEntry, lookupEntry]
  | cons p rest ih =>
      by_cases h : p.1 = k
      · simp [setEntry, h, lookupEntry]
      · simp [setEntry, h, lookupEntry, ih]

theorem lookupEntry_setEntry_ne {T : Type} (s : Store T) (k k' : String)
    (v : ResourceInfo T) (h : k' ≠ k) :
    lookupEntry (setEntry s k v) k' = lookupEntry s k' := by
  have hk : ¬ k = k' := Ne.symm h
  induction s with
  | nil => simp [setEntry, lookupEntry, hk]
  | cons p rest ih =>
      by_cases hp : p.1 = k
      · subst hp
        have hp' : ¬ p.1 = k' := hk
        simp [setEntry, lookupEntry, hk, hp']
      · by_cases hp' : p.1 = k'
        · simp [setEntry, hp, lookupEntry, hp', h]
        · simp [setEntry, hp, lookupEntry, hp', ih]

theorem lookupEntry_eraseEntry_self {T : Type} (s : Store T) (k : String) :
    lookupEntry (eraseEntry s k) k = none := by
  induction s with
  | nil => simp [eraseEntry, lookupEntry]
  | cons p rest ih =>
      by_cases hp : p.1 = k
      · simpa [eraseEntry, hp] using ih
      · simpa [eraseEntry, lookupEntry, hp] using ih

theorem lookupEntry_eraseEntry_ne {T : Type} (s : Store T) (k k' : String)
    (h : k' ≠ k) :
    lookupEntry (eraseEntry s k) k' = lookupEntry s k' := by
  induction s with
  | nil => simp [eraseEntry, lookupEntry]
  | cons p rest ih =>
      by_cases hp : p.1 = k
      · have hp' : ¬ p.1 = k' := by
          rw [hp]; exact Ne.symm h
        simpa [eraseEntry, lookupEntry, hp, hp', Ne.symm h] using ih
      · by_cases hp' : p.1 = k'
        · simp [eraseEntry, lookupEntry, hp, hp', h]
        · simpa [eraseEntry, lookupEntry, hp, hp'] using ih

theorem lookupEntry_eq_none_iff {T : Type} (s : Store T) (k : String) :
    lookupEntry s k = none ↔ ∀ p ∈ s, p.1 ≠ k := by
  induction s with
  | nil => simp [lookupEntry]
  | cons p rest ih =>
      by_cases hp : p.1 = k
      · simp [lookupEntry, hp]
      · simp [lookupEntry, hp, ih]

theorem lookupEntry_mem {T : Type} (s : Store T) (k : String)
    (info : ResourceInfo T) (h : lookupEntry s k = some info) :
    (k, info) ∈ s := by
  induction s with
  | nil => simp [lookupEntry] at h
  | cons p rest ih =>
      rcases p with ⟨a, b⟩
      by_cases hp : a = k
      · subst hp
        simp [lookupEntry] at h
        subst h
        exact List.mem_cons_self _ _
      · simp [lookupEntry, hp] at h
        exact List.mem_cons_of_mem _ (ih h)

theorem mem_lookupEntry {T : Type} (s : Store T) (k : String)
    (info : ResourceInfo T) (hnd : keysNodup s) (h : (k, info) ∈ s) :
    lookupEntry s k = some info := by
  induction s with
  | nil => simp at h
  | cons p rest ih =>
      have hnd' : keysNodup rest := by
        have := (List.nodup_cons.mp hnd).2
        exact this
      rcases List.mem_cons.mp h with h1 | h2
      · subst h1
        simp [lookupEntry]
      · have hpk : p.1 ≠ k := by
          intro he
          have : p.1 ∈ rest.map Prod.fst := by
            rw [he]
            exact List.mem_map.mpr ⟨(k, info), h2, rfl⟩
          exact (List.nodup_cons.mp hnd).1 this
        simp [lookupEntry, hpk, ih hnd' h2]

/-- The staleness test of the sweep at time now:
now - info.lastUsed > cleanupIntervalMs, strict. A negative JS difference
(entry refreshed after now was captured) is never greater than the
non-negative interval, which truncated Nat subtraction reproduces. -/
def isStale {T : Type} (now interval : Nat) (info : ResourceInfo T) : Bool :=
  decide (interval < now - info.lastUsed)

/-- First phase of cleanupInactiveResources: the snapshot scan that builds
keysToRemove from the entries whose idle time strictly exceeds the
interval. -/
def scanKeys {T : Type} (s : Store T) (now interval : Nat) : List String :=
  (s.filter (fun p => isStale now interval p.2)).map Prod.fst

/-- A store together with the log of cleanup invocations made so far, each
recorded as the processed key paired with the entry whose cleanupFn ran. -/
structure SweepState (T : Type) where
  store : Store T
  log : List (String × ResourceInfo T)
  deriving Repr

/-- How many cleanup invocations a log records against one key. -/
def logCountKey {T : Type} (log : List (String × ResourceInfo T))
    (k : String) : Nat :=
  (log.filter (fun p => p.1 = k)).length

/-- Body of the second loop of cleanupInactiveResources for one candidate
key: re-read the entry, re-check staleness against the same captured now,
and only then invoke its cleanup; the entry is deleted only when the
cleanup promise resolved — on rejection the delete is skipped (it is
commented out in the source) and the entry stays in the store. -/
def sweepStep {T : Type} (ok : Nat → Bool) (now interval : Nat)
    (st : SweepState T) (key : String) : SweepState T :=
  match lookupEntry st.store key with
  | some info =>
      if isStale now interval info then
        if ok info.cleanupFn then
          { store := eraseEntry st.store key, log := st.log ++ [(key, info)] }
        else
          { store := st.store, log := st.log ++ [(key, info)] }
      else st
  | none => st

/-- Embeds cleanupInactiveResources run to completion with no interleaved
acquire: snapshot scan, then the sequential per-key re-check / cleanup /
delete loop. -/
def cleanupInactiveResources {T : Type} (ok : Nat → Bool) (s : Store T)
    (now interval : Nat) : SweepState T :=
  (scanKeys s now interval).foldl (sweepStep ok now interval) ⟨s, []⟩

/-- The mutable fields of the ResourceManager class that shutdown touches:
the resources Map and whether cleanupTimer is non-null. -/
structure ManagerState (T : Type) where
  resources : Store T
  timerRunning : Bool
  deriving Repr

/-- Embeds stopCleanupTimer: clears the interval and nulls the handle; when
the timer is already stopped the guard makes it a no-op. -/
def stopCleanupTimer {T : Type} (m : ManagerState T) : ManagerState T :=
  { m with timerRunning := false }

/-- Observable outcome of destroyAllNow: the manager state afterwards, the
cleanup invocations it made, and the subset whose promise rejected (each
rejection is caught and only logged). -/
structure DestroyResult (T : Type) where
  state : ManagerState T
  invoked : List (String × ResourceInfo T)
  failed : List (String × ResourceInfo T)
  deriving Repr

/-- Embeds destroyAllNow: stop the timer, start a cleanup for every stored
entry with rejections caught, await all settlements, then clear the store
unconditionally. The function is total: no cleanup failure reaches the
caller. -/
def destroyAllNow {T : Type} (ok : Nat → Bool) (m : ManagerState T) :
    DestroyResult T :=
  { state := { resources := [], timerRunning := false }
    invoked := m.resources
    failed := m.resources.filter (fun p => !(ok p.2.cleanupFn)) }

theorem sweepStep_lookup_ne {T : Type} (ok : Nat → Bool) (now itv : Nat)
    (st : SweepState T) (k k' : String) (hk : k' ≠ k) :
    lookupEntry (sweepStep ok now itv st k).store k' =
      lookupEntry st.store k' := by
  unfold sweepStep
  cases h : lookupEntry st.store k with
  | none => rfl
  | some info =>
      by_cases hs : isStale now itv info
      · by_cases ho : ok info.cleanupFn
        · simp [hs, ho, lookupEntry_eraseEntry_ne _ _ _ hk]
        · simp [hs, ho]
      · simp [hs]

theorem sweepStep_count_ne {T : Type} (ok : Nat → Bool) (now itv : Nat)
    (st : SweepState T) (k k' : String) (hk : k' ≠ k) :
    logCountKey (sweepStep ok now itv st k).log k' =
      logCountKey st.log k' := by
  unfold sweepStep
  cases h : lookupEntry st.store k with
  | none => rfl
  | some info =>
      by_cases hs : isStale now itv info
      · by_cases ho : ok info.cleanupFn
        · simp [hs, ho, logCountKey, List.filter_append, Ne.symm hk]
        · simp [hs, ho, logCountKey, List.filter_append, Ne.symm hk]
      · simp [hs]

theorem foldl_sweepStep_not_mem {T : Type} (ok : Nat → Bool) (now itv : Nat)
    (keys : List String) (st : SweepState T) (k : String) (hk : k ∉ keys) :
    lookupEntry ((keys.foldl (sweepStep ok now itv) st).store) k =
        lookupEntry st.store k ∧
    logCountKey ((keys.foldl (sweepStep ok now itv) st).log) k =
        logCountKey st.log k := by
  induction keys generalizing st with
  | nil => exact ⟨rfl, rfl⟩
  | cons k0 rest ih =>
      have hk0 : k ≠ k0 := by
        intro he
        exact hk (he ▸ List.mem_cons_self _ _)
      have hkrest : k ∉ rest := fun hm => hk (List.mem_cons_of_mem _ hm)
      have hstep := ih (sweepStep ok now itv st k0) hkrest
      refine ⟨?_, ?_⟩
      · rw [List.foldl_cons, hstep.1, sweepStep_lookup_ne _ _ _ _ _ _ hk0]
      · rw [List.foldl_cons, hstep.2, sweepStep_count_ne _ _ _ _ _ _ hk0]

theorem scanKeys_nodup {T : Type} (s : Store T) (now itv : Nat)
    (hnd : keysNodup s) : (scanKeys s now itv).Nodup := by
  have hsub : List.Sublist (scanKeys s now itv) (s.map Prod.fst) := by
    exact List.Sublist.map _ (List.filter_sublist s)
  exact List.Nodup.sublist hsub hnd

theorem mem_scanKeys_iff {T : Type} (s : Store T) (now itv : Nat)
    (k : String) (hnd : keysNodup s) :
    k ∈ scanKeys s now itv ↔
      ∃ info, lookupEntry s k = some info ∧ isStale now itv info = true := by
  constructor
  · intro hm
    rcases List.mem_map.mp hm with ⟨p, hpmem, hpk⟩
    rcases List.mem_filter.mp hpmem with ⟨hps, hstale⟩
    refine ⟨p.2, ?_, hstale⟩
    have : (k, p.2) ∈ s := by
      rcases p with ⟨a, b⟩
      simp at hpk
      subst hpk
      exact hps
    exact mem_lookupEntry s k p.2 hnd this
  · intro ⟨info, hlk, hstale⟩
    have hmem : (k, info) ∈ s := lookupEntry_mem s k info hlk
    refine List.mem_map.mpr ⟨(k, info), ?_, rfl⟩
    exact List.mem_filter.mpr ⟨hmem, hstale⟩

theorem not_mem_scanKeys_of_none {T : Type} (s : Store T) (now itv : Nat)
    (k : String) (hlk : lookupEntry s k = none) :
    k ∉ scanKeys s now itv := by
  intro hm
  rcases List.mem_map.mp hm with ⟨p, hpmem, hpk⟩
  rcases List.mem_filter.mp hpmem with ⟨hps, _⟩
  exact ((lookupEntry_eq_none_iff s k).mp hlk) p hps hpk

theorem logCountKey_append_self {T : Type} (l : List (String × ResourceInfo T))
    (k : String) (info : ResourceInfo T) :
    logCountKey (l ++ [(k, info)]) k = logCountKey l k + 1 := by
  simp [logCountKey, List.filter_append]

theorem sweepStep_eq_ok {T : Type} (ok : Nat → Bool) (now itv : Nat)
    (st : SweepState T) (k : String) (info : ResourceInfo T)
    (hlk : lookupEntry st.store k = some info)
    (hst : isStale now itv info = true) (ho : ok info.cleanupFn = true) :
    sweepStep ok now itv st k =
      ⟨eraseEntry st.store k, st.log ++ [(k, info)]⟩ := by
  unfold sweepStep
  rw [hlk]
  simp [hst, ho]

theorem sweepStep_eq_fail {T : Type} (ok : Nat → Bool) (now itv : Nat)
    (st : SweepState T) (k : String) (info : ResourceInfo T)
    (hlk : lookupEntry st.store k = some info)
    (hst : isStale now itv info = true) (ho : ok info.cleanupFn = false) :
    sweepStep ok now itv st k = ⟨st.store, st.log ++ [(k, info)]⟩ := by
  unfold sweepStep
  rw [hlk]
  simp [hst, ho]

/-- What one full sweep does to an entry that is stale at the captured now:
its cleanup is invoked exactly once, and it is deleted from the store
exactly when that cleanup succeeded. -/
theorem sweep_stale_spec {T : Type} (ok : Nat → Bool) (s : Store T)
    (now itv : Nat) (k : String) (info : ResourceInfo T)
    (hnd : keysNodup s) (hk : lookupEntry s k = some info)
    (hst : isStale now itv info = true) :
    lookupEntry (cleanupInactiveResources ok s now itv).store k =
        (if ok info.cleanupFn then none else some info) ∧
    logCountKey (cleanupInactiveResources ok s now itv).log k = 1 := by
  have hmem : k ∈ scanKeys s now itv :=
    (mem_scanKeys_iff s now itv k hnd).mpr ⟨info, hk, hst⟩
  rcases List.append_of_mem hmem with ⟨L1, L2, hsplit⟩
  have hnds : (scanKeys s now itv).Nodup := scanKeys_nodup s now itv hnd
  rw [hsplit] at hnds
  rcases List.nodup_append.mp hnds with ⟨hn1, hn2, hdisj⟩
  have hkL1 : k ∉ L1 := fun hkl => hdisj hkl (List.mem_cons_self _ _)
  have hkL2 : k ∉ L2 := (List.nodup_cons.mp hn2).1
  have hfr1 := foldl_sweepStep_not_mem ok now itv L1 (⟨s, []⟩ : SweepState T) k hkL1
  have hl1 : lookupEntry (L1.foldl (sweepStep ok now itv) ⟨s, []⟩).store k =
      some info := by
    rw [hfr1.1]; exact hk
  have hc1 : logCountKey (L1.foldl (sweepStep ok now itv) ⟨s, []⟩).log k = 0 := by
    rw [hfr1.2]; rfl
  unfold cleanupInactiveResources
  rw [hsplit, List.foldl_append, List.foldl_cons]
  by_cases ho : ok info.cleanupFn = true
  · rw [sweepStep_eq_ok ok now itv _ k info hl1 hst ho, ho, if_pos rfl]
    have hfr2 := foldl_sweepStep_not_mem ok now itv L2
      (⟨eraseEntry (L1.foldl (sweepStep ok now itv) ⟨s, []⟩).store k,
        (L1.foldl (sweepStep ok now itv) ⟨s, []⟩).log ++ [(k, info)]⟩ : SweepState T)
      k hkL2
    refine ⟨?_, ?_⟩
    · rw [hfr2.1]
      exact lookupEntry_eraseEntry_self _ _
    · rw [hfr2.2, logCountKey_append_self, hc1]
  · rw [Bool.not_eq_true] at ho
    rw [sweepStep_eq_fail ok now itv _ k info hl1 hst ho, ho,
      if_neg Bool.false_ne_true]
    have hfr2 := foldl_sweepStep_not_mem ok now itv L2
      (⟨(L1.foldl (sweepStep ok now itv) ⟨s, []⟩).store,
        (L1.foldl (sweepStep ok now itv) ⟨s, []⟩).log ++ [(k, info)]⟩ : SweepState T)
      k hkL2
    refine ⟨?_, ?_⟩
    · rw [hfr2.1]
      exact hl1
    · rw [hfr2.2, logCountKey_append_self, hc1]

/-- A sweep leaves an entry that is not stale at the captured now untouched
and never invokes its cleanup. -/
theorem sweep_fresh_spec {T : Type} (ok : Nat → Bool) (s : Store T)
    (now itv : Nat) (k : String) (info : ResourceInfo T)
    (hnd : keysNodup s) (hk : lookupEntry s k = some info)
    (hst : isStale now itv info = false) :
    lookupEntry (cleanupInactiveResources ok s now itv).store k = some info ∧
    logCountKey (cleanupInactiveResources ok s now itv).log k = 0 := by
  have hnm : k ∉ scanKeys s now itv := by
    intro hm
    rcases (mem_scanKeys_iff s now itv k hnd).mp hm with ⟨info2, hlk2, hst2⟩
    rw [hk] at hlk2
    injection hlk2 with he
    subst he
    simp [hst] at hst2
  have hfr := foldl_sweepStep_not_mem ok now itv (scanKeys s now itv)
    (⟨s, []⟩ : SweepState T) k hnm
  refine ⟨?_, ?_⟩
  · unfold cleanupInactiveResources
    rw [hfr.1]; exact hk
  · unfold cleanupInactiveResources
    rw [hfr.2]; rfl

/-- A sweep neither creates an entry for an absent key nor invokes any
cleanup against it. -/
theorem sweep_absent_spec {T : Type} (ok : Nat → Bool) (s : Store T)
    (now itv : Nat) (k : String) (hlk : lookupEntry s k = none) :
    lookupEntry (cleanupInactiveResources ok s now itv).store k = none ∧
    logCountKey (cleanupInactiveResources ok s now itv).log k = 0 := by
  have hnm := not_mem_scanKeys_of_none s now itv k hlk
  have hfr := foldl_sweepStep_not_mem ok now itv (scanKeys s now itv)
    (⟨s, []⟩ : SweepState T) k hnm
  refine ⟨?_, ?_⟩
  · unfold cleanupInactiveResources
    rw [hfr.1]; exact hlk
  · unfold cleanupInactiveResources
    rw [hfr.2]; rfl

/-- Within one sweep no key's cleanup is invoked more than once. -/
theorem sweep_count_le_one {T : Type} (ok : Nat → Bool) (s : Store T)
    (now itv : Nat) (k : String) (hnd : keysNodup s) :
    logCountKey (cleanupInactiveResources ok s now itv).log k ≤ 1 := by
  cases hlk : lookupEntry s k with
  | none =>
      rw [(sweep_absent_spec ok s now itv k hlk).2]
      exact Nat.zero_le 1
  | some info =>
      cases hsc : isStale now itv info with
      | false =>
          rw [(sweep_fresh_spec ok s now itv k info hnd hlk hsc).2]
          exact Nat.zero_le 1
      | true =>
          rw [(sweep_stale_spec ok s now itv k info hnd hlk hsc).2]

/-- The re-check before cleanup: a candidate whose entry is fresh again by
the time its turn comes (now at most lastUsed + interval) is skipped
entirely — no cleanup invocation, no change to store or log. -/
theorem sweepStep_fresh_noop {T : Type} (ok : Nat → Bool) (now itv : Nat)
    (st : SweepState T) (k : String) (info : ResourceInfo T)
    (hlk : lookupEntry st.store k = some info)
    (hfresh : now ≤ info.lastUsed + itv) :
    sweepStep ok now itv st k = st := by
  have hstale : isStale now itv info = false := by
    simp [isStale]
    omega
  unfold sweepStep
  rw [hlk]
  simp [hstale]

/-- Claim C3: if the factory passed to getResource fails, no entry for that
key is stored afterward (the store is unchanged), the failure surfaces as
an error wrapping the resourceType context, and a subsequent getResource
for the same key invokes the factory again instead of returning a cached
failure. -/
theorem claim_C3_factory_failure {T : Type} (s : Store T) (k ty e : String)
    (cl : Nat) (now : Nat) (iid : String) (ty2 : String)
    (fac2 : Except String T) (cl2 : Nat) (now2 : Nat) (iid2 : String)
    (hk : lookupEntry s k = none) :
    (getResource s k ty (Except.error e) cl now iid).store = s ∧
    (getResource s k ty (Except.error e) cl now iid).result =
      Except.error
        ("Resource factory function failed for type " ++ ty ++ ": " ++ e) ∧
    lookupEntry (getResource s k ty (Except.error e) cl now iid).store k =
      none ∧
    (getResource (getResource s k ty (Except.error e) cl now iid).store
        k ty2 fac2 cl2 now2 iid2).factoryInvoked = true := by
  have hg : getResource s k ty (Except.error e) cl now iid =
      { store := s
        result := Except.error
          ("Resource factory function failed for type " ++ ty ++ ": " ++ e)
        factoryInvoked := true
        typeMismatchWarned := false } := by
    unfold getResource
    rw [hk]
  refine ⟨by rw [hg], by rw [hg], by rw [hg]; exact hk, ?_⟩
  rw [hg]
  show (getResource s k ty2 fac2 cl2 now2 iid2).factoryInvoked = true
  unfold getResource
  rw [hk]
  cases fac2 <;> rfl

/-- Store and entry used to instantiate the claims on concrete inputs. -/
def wInfo : ResourceInfo Nat :=
  { resource := 5, lastUsed := 50, instanceId := "w1", resourceType := "sdk",
    cacheKey := "kw", cleanupFn := 3 }

def wStore : Store Nat := [("kw", wInfo)]

theorem claim_C3_factory_failure_witness :
    lookupEntry ([] : Store Nat) "kb" = none ∧
    ((getResource ([] : Store Nat) "kb" "sdk" (Except.error "network down") 0
        7 "i0").store = [] ∧
    (getResource ([] : Store Nat) "kb" "sdk" (Except.error "network down") 0
        7 "i0").result =
      Except.error
        ("Resource factory function failed for type " ++ "sdk" ++ ": "
          ++ "network down") ∧
    lookupEntry (getResource ([] : Store Nat) "kb" "sdk"
        (Except.error "network down") 0 7 "i0").store "kb" = none ∧
    (getResource (getResource ([] : Store Nat) "kb" "sdk"
        (Except.error "network down") 0 7 "i0").store
        "kb" "sdk" (Except.ok 9) 1 8 "i1").factoryInvoked = true) :=
  ⟨rfl, claim_C3_factory_failure [] "kb" "sdk" "network down" 0 7 "i0" "sdk"
    (Except.ok 9) 1 8 "i1" rfl⟩

/-- Claim C4: a getResource call for a key with a live entry returns the
stored resource without invoking the factory, refreshes the entry's
lastUsed to now, and a differing resourceType argument only raises the
mismatch warning while the existing instance is still returned. -/
theorem claim_C4_reuse_hit {T : Type} (s : Store T) (k ty : String)
    (fac : Except String T) (cl : Nat) (now : Nat) (iid : String)
    (info : ResourceInfo T) (hk : lookupEntry s k = some info) :
    (getResource s k ty fac cl now iid).result = Except.ok info.resource ∧
    (getResource s k ty fac cl now iid).factoryInvoked = false ∧
    lookupEntry (getResource s k ty fac cl now iid).store k =
      some { info with lastUsed := now } ∧
    ((getResource s k ty fac cl now iid).typeMismatchWarned = true ↔
      info.resourceType ≠ ty) := by
  have hg : getResource s k ty fac cl now iid =
      { store := setEntry s k { info with lastUsed := now }
        result := Except.ok info.resource
        factoryInvoked := false
        typeMismatchWarned := decide (info.resourceType ≠ ty) } := by
    unfold getResource
    rw [hk]
  refine ⟨by rw [hg], by rw [hg], ?_, ?_⟩
  · rw [hg]
    exact lookupEntry_setEntry_self s k _
  · rw [hg]
    exact decide_eq_true_iff

theorem claim_C4_reuse_hit_witness :
    lookupEntry wStore "kw" = some wInfo ∧
    ((getResource wStore "kw" "other" (Except.ok 9) 4 60 "w2").result =
        Except.ok wInfo.resource ∧
    (getResource wStore "kw" "other" (Except.ok 9) 4 60 "w2").factoryInvoked =
        false ∧
    lookupEntry (getResource wStore "kw" "other" (Except.ok 9) 4 60
        "w2").store "kw" = some { wInfo with lastUsed := 60 } ∧
    ((getResource wStore "kw" "other" (Except.ok 9) 4 60
        "w2").typeMismatchWarned = true ↔ wInfo.resourceType ≠ "other")) :=
  ⟨rfl, claim_C4_reuse_hit wStore "kw" "other" (Except.ok 9) 4 60 "w2" wInfo
    rfl⟩

/-- Claim C10: on a hit, getResource rewrites only lastUsed — the stored
resource, instanceId, resourceType, cacheKey and cleanupFn survive
unchanged, so the cleanup function (and resourceType) passed to the later
call is ignored and the cleanup that eviction or shutdown would run is the
one supplied when the entry was created. -/
theorem claim_C10_hit_frame {T : Type} (s : Store T) (k ty2 : String)
    (fac : Except String T) (cl2 : Nat) (now : Nat) (iid2 : String)
    (info : ResourceInfo T) (hk : lookupEntry s k = some info) :
    lookupEntry (getResource s k ty2 fac cl2 now iid2).store k =
      some { resource := info.resource, lastUsed := now,
             instanceId := info.instanceId, resourceType := info.resourceType,
             cacheKey := info.cacheKey, cleanupFn := info.cleanupFn } := by
  have hg : (getResource s k ty2 fac cl2 now iid2).store =
      setEntry s k { info with lastUsed := now } := by
    unfold getResource
    rw [hk]
  rw [hg]
  exact lookupEntry_setEntry_self s k _

theorem claim_C10_hit_frame_witness :
    lookupEntry wStore "kw" = some wInfo ∧
    lookupEntry (getResource wStore "kw" "other" (Except.ok 9) 44 61
        "w3").store "kw" =
      some { resource := wInfo.resource, lastUsed := 61,
             instanceId := wInfo.instanceId,
             resourceType := wInfo.resourceType, cacheKey := wInfo.cacheKey,
             cleanupFn := wInfo.cleanupFn } :=
  ⟨rfl, claim_C10_hit_frame wStore "kw" "other" (Except.ok 9) 44 61 "w3" wInfo
    rfl⟩

/-- Claim C6: if a candidate entry is re-acquired (lastUsed refreshed to
time t) between the sweep's scan snapshot and its cleanup turn, and the
sweep's captured now is within the interval of t, the re-check before
cleanup skips the entry: no cleanup is invoked and it stays in the store
for that sweep cycle. -/
theorem claim_C6_recheck_protects {T : Type} (ok : Nat → Bool)
    (now itv : Nat) (s : Store T) (k ty : String) (fac : Except String T)
    (cl t : Nat) (iid : String) (lg : List (String × ResourceInfo T))
    (info : ResourceInfo T) (hk : lookupEntry s k = some info)
    (hfresh : now ≤ t + itv) :
    sweepStep ok now itv ⟨(getResource s k ty fac cl t iid).store, lg⟩ k =
      ⟨(getResource s k ty fac cl t iid).store, lg⟩ ∧
    lookupEntry (getResource s k ty fac cl t iid).store k =
      some { info with lastUsed := t } := by
  have hg : (getResource s k ty fac cl t iid).store =
      setEntry s k { info with lastUsed := t } := by
    unfold getResource
    rw [hk]
  have hlk : lookupEntry (getResource s k ty fac cl t iid).store k =
      some { info with lastUsed := t } := by
    rw [hg]
    exact lookupEntry_setEntry_self s k _
  refine ⟨?_, hlk⟩
  exact sweepStep_fresh_noop ok now itv
    ⟨(getResource s k ty fac cl t iid).store, lg⟩ k
    { info with lastUsed := t } hlk hfresh

theorem claim_C6_recheck_protects_witness :
    lookupEntry wStore "kw" = some wInfo ∧
    (101 : Nat) ≤ 100 + 30 ∧
    (sweepStep (fun _ => true) 101 30
        ⟨(getResource wStore "kw" "sdk" (Except.ok 9) 4 100 "w4").store,
          []⟩ "kw" =
      ⟨(getResource wStore "kw" "sdk" (Except.ok 9) 4 100 "w4").store, []⟩ ∧
    lookupEntry (getResource wStore "kw" "sdk" (Except.ok 9) 4 100
        "w4").store "kw" = some { wInfo with lastUsed := 100 }) :=
  ⟨rfl, by decide,
    claim_C6_recheck_protects (fun _ => true) 101 30 wStore "kw" "sdk"
      (Except.ok 9) 4 100 "w4" [] wInfo rfl (by decide)⟩

theorem logCountKey_eq_zero {T : Type} (l : List (String × ResourceInfo T))
    (k : String) (h : ∀ p ∈ l, p.1 ≠ k) : logCountKey l k = 0 := by
  unfold logCountKey
  rw [List.length_eq_zero]
  rw [List.filter_eq_nil_iff]
  intro p hp
  simpa using h p hp

theorem logCountKey_of_lookup {T : Type} (s : Store T) (k : String)
    (info : ResourceInfo T) (hnd : keysNodup s)
    (hk : lookupEntry s k = some info) : logCountKey s k = 1 := by
  induction s with
  | nil => simp [lookupEntry] at hk
  | cons p rest ih =>
      have hnp : p.1 ∉ rest.map Prod.fst := (List.nodup_cons.mp hnd).1
      have hnr : keysNodup rest := (List.nodup_cons.mp hnd).2
      by_cases hp : p.1 = k
      · have hz : logCountKey rest k = 0 := by
          apply logCountKey_eq_zero
          intro q hq hqk
          exact hnp (by
            rw [hp, ← hqk]
            exact List.mem_map.mpr ⟨q, hq, rfl⟩)
        unfold logCountKey at hz ⊢
        simp [List.filter_cons, hp, hz]
      · have hk' : lookupEntry rest k = some info := by
          simpa [lookupEntry, hp] using hk
        have hone := ih hnr hk'
        unfold logCountKey at hone ⊢
        simp [List.filter_cons, hp, hone]

/-- Claim C7: destroyAllNow invokes the stored cleanup of every live entry
exactly once, waits for all of them to settle, leaves the store empty and
the timer stopped unconditionally — the ok oracle is arbitrary, so this
covers every pattern of cleanup failures — and the call itself surfaces no
error (it is a total function; rejections are caught inside). -/
theorem claim_C7_shutdown_destroys_all {T : Type} (ok : Nat → Bool)
    (m : ManagerState T) (k : String) (info : ResourceInfo T)
    (hnd : keysNodup m.resources)
    (hk : lookupEntry m.resources k = some info) :
    (destroyAllNow ok m).state.resources = [] ∧
    (destroyAllNow ok m).state.timerRunning = false ∧
    (destroyAllNow ok m).invoked = m.resources ∧
    logCountKey (destroyAllNow ok m).invoked k = 1 := by
  refine ⟨rfl, rfl, rfl, ?_⟩
  exact logCountKey_of_lookup m.resources k info hnd hk

/-- Second entry and a two-entry manager used to instantiate the shutdown
claims. -/
def wInfo2 : ResourceInfo Nat :=
  { resource := 6, lastUsed := 10, instanceId := "w5", resourceType := "sdk",
    cacheKey := "kx", cleanupFn := 4 }

def wStore2 : Store Nat := [("kw", wInfo), ("kx", wInfo2)]

def mgr2 : ManagerState Nat := { resources := wStore2, timerRunning := true }

theorem claim_C7_shutdown_destroys_all_witness :
    keysNodup mgr2.resources ∧
    lookupEntry mgr2.resources "kx" = some wInfo2 ∧
    ((destroyAllNow (fun _ => false) mgr2).state.resources = [] ∧
    (destroyAllNow (fun _ => false) mgr2).state.timerRunning = false ∧
    (destroyAllNow (fun _ => false) mgr2).invoked = mgr2.resources ∧
    logCountKey (destroyAllNow (fun _ => false) mgr2).invoked "kx" = 1) :=
  ⟨by decide, rfl,
    claim_C7_shutdown_destroys_all (fun _ => false) mgr2 "kx" wInfo2
      (by decide) rfl⟩

/-- Claim C8: shutdown is idempotent — right after one destroyAllNow a
second one performs no cleanup invocations, records no failures and leaves
the same final state; on an already-empty store it performs no invocations
at all; and stopping the already-stopped timer is a no-op. -/
theorem claim_C8_shutdown_idempotent {T : Type} (ok ok2 : Nat → Bool)
    (m : ManagerState T) :
    (destroyAllNow ok2 (destroyAllNow ok m).state).invoked = [] ∧
    (destroyAllNow ok2 (destroyAllNow ok m).state).failed = [] ∧
    (destroyAllNow ok2 (destroyAllNow ok m).state).state =
      (destroyAllNow ok m).state ∧
    (m.resources = [] →
      (destroyAllNow ok m).invoked = [] ∧ (destroyAllNow ok m).failed = []) ∧
    stopCleanupTimer (stopCleanupTimer m) = stopCleanupTimer m := by
  refine ⟨rfl, rfl, rfl, ?_, rfl⟩
  intro hm
  refine ⟨hm, ?_⟩
  show m.resources.filter _ = []
  rw [hm]
  rfl

theorem claim_C8_shutdown_idempotent_witness :
    ({ resources := [], timerRunning := true } : ManagerState Nat).resources
        = [] ∧
    ((destroyAllNow (fun _ => false)
        (destroyAllNow (fun _ => true)
          ({ resources := [], timerRunning := true } : ManagerState Nat)).state).invoked
        = [] ∧
    (destroyAllNow (fun _ => false)
        (destroyAllNow (fun _ => true)
          ({ resources := [], timerRunning := true } : ManagerState Nat)).state).failed
        = [] ∧
    (destroyAllNow (fun _ => false)
        (destroyAllNow (fun _ => true)
          ({ resources := [], timerRunning := true } : ManagerState Nat)).state).state
        = (destroyAllNow (fun _ => true)
            ({ resources := [], timerRunning := true } : ManagerState Nat)).state ∧
    (({ resources := [], timerRunning := true } : ManagerState Nat).resources = [] →
      (destroyAllNow (fun _ => true)
          ({ resources := [], timerRunning := true } : ManagerState Nat)).invoked = [] ∧
      (destroyAllNow (fun _ => true)
          ({ resources := [], timerRunning := true } : ManagerState Nat)).failed = []) ∧
    stopCleanupTimer (stopCleanupTimer
        ({ resources := [], timerRunning := true } : ManagerState Nat)) =
      stopCleanupTimer
        ({ resources := [], timerRunning := true } : ManagerState Nat)) :=
  ⟨rfl, claim_C8_shutdown_idempotent (fun _ => true) (fun _ => false)
    { resources := [], timerRunning := true }⟩

/-- A cleanup oracle under which every cleanup invocation rejects. -/
def okNever : Nat → Bool := fun _ => false

/-- Stores with a single entry that is stale at the sweep times used in the
counterexamples, whose cleanup always fails. -/
def cInfoA : ResourceInfo Nat :=
  { resource := 7, lastUsed := 0, instanceId := "a1", resourceType := "sdk",
    cacheKey := "a", cleanupFn := 0 }

def cStoreA : Store Nat := [("a", cInfoA)]

def cInfoB : ResourceInfo Nat :=
  { resource := 8, lastUsed := 5, instanceId := "b1", resourceType := "sdk",
    cacheKey := "b", cleanupFn := 2 }

def cStoreB : Store Nat := [("b", cInfoB)]

def cInfoC : ResourceInfo Nat :=
  { resource := 9, lastUsed := 0, instanceId := "c1", resourceType := "sdk",
    cacheKey := "c", cleanupFn := 1 }

def cStoreC : Store Nat := [("c", cInfoC)]

theorem isStale_iff {T : Type} (now itv : Nat) (info : ResourceInfo T) :
    isStale now itv info = true ↔ itv < now - info.lastUsed :=
  decide_eq_true_iff

/-- Claim C1 counterexample: at now = 200, interval 20, the entry under key
b is selected by the sweep and its cleanup is invoked, that cleanup fails,
and the entry is still in the store afterward — the sweep does NOT remove
an entry whose cleanup failed (the delete is skipped in the source). -/
theorem claim_C1_cex :
    isStale 200 20 cInfoB = true ∧
    logCountKey (cleanupInactiveResources okNever cStoreB 200 20).log "b"
      = 1 ∧
    lookupEntry (cleanupInactiveResources okNever cStoreB 200 20).store "b"
      = some cInfoB :=
  ⟨rfl, rfl, rfl⟩

/-- Claim C1 (amended): for an entry selected by the sweep, removal from
the store happens only when its cleanup succeeds; when the cleanup fails
the entry is kept (to be retried by a later sweep or shutdown), and the
failure does not abort the sweep of the other candidates — a sibling stale
entry whose cleanup succeeds is still cleaned and removed. -/
theorem claim_C1_cleanup_failure_keeps_entry {T : Type} (ok : Nat → Bool)
    (s : Store T) (now itv : Nat) (k1 k2 : String)
    (info1 info2 : ResourceInfo T) (hnd : keysNodup s)
    (hk1 : lookupEntry s k1 = some info1)
    (hst1 : isStale now itv info1 = true)
    (hf1 : ok info1.cleanupFn = false)
    (hk2 : lookupEntry s k2 = some info2)
    (hst2 : isStale now itv info2 = true)
    (ho2 : ok info2.cleanupFn = true) :
    lookupEntry (cleanupInactiveResources ok s now itv).store k1 =
      some info1 ∧
    logCountKey (cleanupInactiveResources ok s now itv).log k1 = 1 ∧
    lookupEntry (cleanupInactiveResources ok s now itv).store k2 = none ∧
    logCountKey (cleanupInactiveResources ok s now itv).log k2 = 1 := by
  have h1 := sweep_stale_spec ok s now itv k1 info1 hnd hk1 hst1
  have h2 := sweep_stale_spec ok s now itv k2 info2 hnd hk2 hst2
  refine ⟨?_, h1.2, ?_, h2.2⟩
  · rw [h1.1, hf1, if_neg Bool.false_ne_true]
  · rw [h2.1, ho2, if_pos rfl]

/-- Cleanup oracle under which only cleanup id 4 succeeds (the kx entry of
wStore2); the kw entry's cleanup id 3 fails. -/
def okOnly4 : Nat → Bool := fun n => decide (n = 4)

theorem claim_C1_cleanup_failure_keeps_entry_witness :
    keysNodup wStore2 ∧
    lookupEntry wStore2 "kw" = some wInfo ∧
    isStale 100 30 wInfo = true ∧
    okOnly4 wInfo.cleanupFn = false ∧
    lookupEntry wStore2 "kx" = some wInfo2 ∧
    isStale 100 30 wInfo2 = true ∧
    okOnly4 wInfo2.cleanupFn = true ∧
    (lookupEntry (cleanupInactiveResources okOnly4 wStore2 100 30).store "kw"
        = some wInfo ∧
    logCountKey (cleanupInactiveResources okOnly4 wStore2 100 30).log "kw"
        = 1 ∧
    lookupEntry (cleanupInactiveResources okOnly4 wStore2 100 30).store "kx"
        = none ∧
    logCountKey (cleanupInactiveResources okOnly4 wStore2 100 30).log "kx"
        = 1) :=
  ⟨by decide, rfl, rfl, rfl, rfl, rfl, rfl,
    claim_C1_cleanup_failure_keeps_entry okOnly4 wStore2 100 30 "kw" "kx"
      wInfo wInfo2 (by decide) rfl rfl rfl rfl rfl rfl⟩

/-- Claim C2 counterexample: the entry under key c has a failing cleanup;
the sweep at now = 100 invokes it once and keeps the entry, and the next
sweep at now = 200 invokes the same entry's cleanup again — two
invocations for one stored entry, refuting at-most-once over the entry's
lifetime. -/
theorem claim_C2_cex :
    logCountKey (cleanupInactiveResources okNever cStoreC 100 10).log "c"
      + logCountKey (cleanupInactiveResources okNever
          (cleanupInactiveResources okNever cStoreC 100 10).store
          200 10).log "c" = 2 :=
  rfl

/-- Claim C2 (amended): within any single sweep an entry's cleanup runs at
most once, and once an entry has been deleted from the store it is never
cleaned again — neither a sweep nor shutdown invokes a cleanup for an
absent key. The original at-most-once-per-lifetime bound, however, only
holds when cleanup invocations succeed: a failed cleanup leaves the entry
in the store and it is cleaned again by later sweeps or shutdown. -/
theorem claim_C2_cleanup_at_most_once_per_pass {T : Type}
    (ok ok2 : Nat → Bool) (s : Store T) (now itv : Nat) (k : String)
    (m : ManagerState T) (hnd : keysNodup s) :
    logCountKey (cleanupInactiveResources ok s now itv).log k ≤ 1 ∧
    (lookupEntry s k = none →
      logCountKey (cleanupInactiveResources ok s now itv).log k = 0) ∧
    (lookupEntry m.resources k = none →
      logCountKey (destroyAllNow ok2 m).invoked k = 0) := by
  refine ⟨sweep_count_le_one ok s now itv k hnd, ?_, ?_⟩
  · intro h
    exact (sweep_absent_spec ok s now itv k h).2
  · intro h
    exact logCountKey_eq_zero m.resources k
      ((lookupEntry_eq_none_iff m.resources k).mp h)

theorem claim_C2_cleanup_at_most_once_per_pass_witness :
    keysNodup wStore2 ∧
    lookupEntry wStore2 "kz" = none ∧
    lookupEntry mgr2.resources "kz" = none ∧
    (logCountKey (cleanupInactiveResources okOnly4 wStore2 100 30).log "kz"
        ≤ 1 ∧
    logCountKey (cleanupInactiveResources okOnly4 wStore2 100 30).log "kz"
        = 0 ∧
    logCountKey (destroyAllNow okNever mgr2).invoked "kz" = 0) :=
  ⟨by decide, rfl, rfl,
    (claim_C2_cleanup_at_most_once_per_pass okOnly4 okNever wStore2 100 30
        "kz" mgr2 (by decide)).1,
    (claim_C2_cleanup_at_most_once_per_pass okOnly4 okNever wStore2 100 30
        "kz" mgr2 (by decide)).2.1 rfl,
    (claim_C2_cleanup_at_most_once_per_pass okOnly4 okNever wStore2 100 30
        "kz" mgr2 (by decide)).2.2 rfl⟩

/-- Claim C5 counterexample: at now = 100, interval 10, the entry under key
a is stale and the sweep invokes its cleanup once, but the cleanup fails
and the entry is NOT absent from the store afterward — refuting the
unconditional "absent afterward" part of the claim. -/
theorem claim_C5_cex :
    isStale 100 10 cInfoA = true ∧
    logCountKey (cleanupInactiveResources okNever cStoreA 100 10).log "a"
      = 1 ∧
    lookupEntry (cleanupInactiveResources okNever cStoreA 100 10).store "a"
      = some cInfoA :=
  ⟨rfl, rfl, rfl⟩

/-- Claim C5 (amended): when the sweep runs, exactly the entries whose idle
time strictly exceeds the interval are candidates; a stale entry has its
cleanup invoked exactly once and, provided that cleanup succeeds, is
absent from the store afterward (on failure it remains); entries at or
below the threshold are untouched and never cleaned. -/
theorem claim_C5_sweep_eviction {T : Type} (ok : Nat → Bool) (s : Store T)
    (now itv : Nat) (k : String) (info : ResourceInfo T)
    (hnd : keysNodup s) (hk : lookupEntry s k = some info) :
    (k ∈ scanKeys s now itv ↔ itv < now - info.lastUsed) ∧
    (isStale now itv info = true →
      logCountKey (cleanupInactiveResources ok s now itv).log k = 1 ∧
      (ok info.cleanupFn = true →
        lookupEntry (cleanupInactiveResources ok s now itv).store k =
          none)) ∧
    (isStale now itv info = false →
      lookupEntry (cleanupInactiveResources ok s now itv).store k =
        some info ∧
      logCountKey (cleanupInactiveResources ok s now itv).log k = 0) := by
  refine ⟨?_, ?_, ?_⟩
  · rw [mem_scanKeys_iff s now itv k hnd]
    constructor
    · rintro ⟨info2, hlk2, hst2⟩
      rw [hk] at hlk2
      injection hlk2 with he
      subst he
      exact (isStale_iff now itv info).mp hst2
    · intro hlt
      exact ⟨info, hk, (isStale_iff now itv info).mpr hlt⟩
  · intro hst
    have h := sweep_stale_spec ok s now itv k info hnd hk hst
    refine ⟨h.2, ?_⟩
    intro ho
    rw [h.1, ho, if_pos rfl]
  · intro hst
    exact sweep_fresh_spec ok s now itv k info hnd hk hst

theorem claim_C5_sweep_eviction_witness :
    keysNodup wStore2 ∧
    lookupEntry wStore2 "kx" = some wInfo2 ∧
    isStale 100 30 wInfo2 = true ∧
    okOnly4 wInfo2.cleanupFn = true ∧
    (("kx" ∈ scanKeys wStore2 100 30 ↔ (30 : Nat) < 100 - wInfo2.lastUsed) ∧
    logCountKey (cleanupInactiveResources okOnly4 wStore2 100 30).log "kx"
        = 1 ∧
    lookupEntry (cleanupInactiveResources okOnly4 wStore2 100 30).store "kx"
        = none) :=
  ⟨by decide, rfl, rfl, rfl,
    (claim_C5_sweep_eviction okOnly4 wStore2 100 30 "kx" wInfo2 (by decide)
        rfl).1,
    ((claim_C5_sweep_eviction okOnly4 wStore2 100 30 "kx" wInfo2 (by decide)
        rfl).2.1 rfl).1,
    ((claim_C5_sweep_eviction okOnly4 wStore2 100 30 "kx" wInfo2 (by decide)
        rfl).2.1 rfl).2 rfl⟩

/-- Claim C9: acquires for different keys do not interfere (an acquire of
one key leaves every other key's slot untouched), and two interleaved
first-time acquires for the same key — both checking the same snapshot in
which the key is absent — both invoke their factories; applying their
commits in order, the second write wins the map slot (the slot holds the
second call's resource and metadata), while the first caller was still
handed its own resource. -/
theorem claim_C9_same_key_race {T : Type} (s : Store T) (k k' ty1 ty2 : String)
    (r1 r2 : T) (c1 c2 t1 t2 : Nat) (id1 id2 : String)
    (hmiss : lookupEntry s k = none) (hne : k' ≠ k) :
    (getResource s k ty1 (Except.ok r1) c1 t1 id1).factoryInvoked = true ∧
    (getResource s k ty2 (Except.ok r2) c2 t2 id2).factoryInvoked = true ∧
    (getResource s k ty1 (Except.ok r1) c1 t1 id1).result = Except.ok r1 ∧
    (getResource s k ty1 (Except.ok r1) c1 t1 id1).store =
      getResourceInsert s k r1 t1 id1 ty1 c1 ∧
    lookupEntry
        (getResourceInsert (getResourceInsert s k r1 t1 id1 ty1 c1)
          k r2 t2 id2 ty2 c2) k =
      some { resource := r2, lastUsed := t2, instanceId := id2,
             resourceType := ty2, cacheKey := k, cleanupFn := c2 } ∧
    lookupEntry (getResource s k ty1 (Except.ok r1) c1 t1 id1).store k' =
      lookupEntry s k' := by
  have hg1 : getResource s k ty1 (Except.ok r1) c1 t1 id1 =
      { store := getResourceInsert s k r1 t1 id1 ty1 c1
        result := Except.ok r1
        factoryInvoked := true
        typeMismatchWarned := false } := by
    unfold getResource
    rw [hmiss]
  have hg2 : (getResource s k ty2 (Except.ok r2) c2 t2 id2).factoryInvoked =
      true := by
    unfold getResource
    rw [hmiss]
  refine ⟨by rw [hg1], hg2, by rw [hg1], by rw [hg1], ?_, ?_⟩
  · exact lookupEntry_setEntry_self _ k _
  · rw [hg1]
    show lookupEntry (setEntry s k _) k' = lookupEntry s k'
    exact lookupEntry_setEntry_ne s k k' _ hne

theorem claim_C9_same_key_race_witness :
    lookupEntry ([] : Store Nat) "dup" = none ∧
    ("oth" : String) ≠ "dup" ∧
    ((getResource ([] : Store Nat) "dup" "sdk" (Except.ok 1) 10 70
        "idA").factoryInvoked = true ∧
    (getResource ([] : Store Nat) "dup" "sdk" (Except.ok 2) 11 71
        "idB").factoryInvoked = true ∧
    (getResource ([] : Store Nat) "dup" "sdk" (Except.ok 1) 10 70
        "idA").result = Except.ok 1 ∧
    (getResource ([] : Store Nat) "dup" "sdk" (Except.ok 1) 10 70
        "idA").store = getResourceInsert [] "dup" 1 70 "idA" "sdk" 10 ∧
    lookupEntry (getResourceInsert
        (getResourceInsert [] "dup" 1 70 "idA" "sdk" 10)
        "dup" 2 71 "idB" "sdk" 11) "dup" =
      some { resource := 2, lastUsed := 71, instanceId := "idB",
             resourceType := "sdk", cacheKey := "dup", cleanupFn := 11 } ∧
    lookupEntry (getResource ([] : Store Nat) "dup" "sdk" (Except.ok 1) 10 70
        "idA").store "oth" = lookupEntry ([] : Store Nat) "oth") :=
  ⟨rfl, by decide,
    claim_C9_same_key_race [] "dup" "oth" "sdk" "sdk" 1 2 10 11 70 71
      "idA" "idB" rfl (by decide)⟩

end ResourceManager
